import Mathlib

/-!
Verification development for `quintctl.py`, a Modbus monitor/control tool for a
Quint DC UPS.  The definitions below are a shallow embedding of the source:
the register catalog (`Quint24DCRegisters`), the decode logic of `print_value`,
the multi-word assembly loop, the `dumpall` range scan, the `monitor` loop's
per-address change decision and cycle structure, and the `set` command.
Machine integers are modelled as `Nat`; the floating-point thresholds of the
monitor are modelled as `Rat`.
-/

namespace Quintctl

/-- Model of a catalog entry's `values` field: in the source it is either a
dict from raw value to label, or a lambda from raw value to label. -/
inductive ValuesField where
  | map (m : List (Nat × String))
  | fn (f : Nat → String)

/-- Model of one entry of the `Quint24DCRegisters` dict in the source.
Fields that a given entry does not define in the source keep their defaults
(`length` defaults to 1, everything else to absent). -/
structure RegEntry where
  name : String
  addr : Nat
  length : Nat := 1
  rtype : Option String := none
  values : Option ValuesField := none
  bits : List (Nat × String) := []
  unit : Option String := none
  min : Option Nat := none
  max : Option Nat := none
  mode : Option String := none
  description : Option String := none

/-- The classification lambda of `OUT_LUI_BatteryInstalledType` (source line 124). -/
def batteryInstalledTypeClassify (value : Nat) : String :=
  if value > 18000 then "Capacitor"
  else if value > 11000 then "Lithium battery"
  else if value > 1000 then "Lead battery"
  else "unknown"

/-- Catalog entry `OUT_LX_Remote` (source lines 17-24). -/
def OUT_LX_Remote : RegEntry :=
  { name := "OUT_LX_Remote", addr := 0x7400, rtype := some "bool",
    values := some (ValuesField.map [(0, "on"), (1, "off")]) }

/-- Catalog entry `OUT_LUI_BatteryInstalledType` (source lines 121-125). -/
def OUT_LUI_BatteryInstalledType : RegEntry :=
  { name := "OUT_LUI_BatteryInstalledType", addr := 0x7469, rtype := some "state",
    values := some (ValuesField.fn batteryInstalledTypeClassify) }

/-- Catalog entry `TIME_LIMIT_MODE_CUSTOM_BUFFER_TIME` (source lines 185-189),
the only entry carrying `mode: "rw"`. -/
def TIME_LIMIT_MODE_CUSTOM_BUFFER_TIME : RegEntry :=
  { name := "TIME_LIMIT_MODE_CUSTOM_BUFFER_TIME", addr := 0x3203, mode := some "rw",
    description :=
      some "seconds after power loss until output voltage is turned off (in custom mode only)" }

/-- The full `Quint24DCRegisters` catalog, in the source's dict insertion order
(the initial literal, then the entries added by `update`).  Note: the source's
`OUT_LUDW_ActualWarning` bits dict writes key 8 twice ("notify more batteries"
then "less batteries"); a Python dict keeps only the later entry, which is what
is transcribed here. -/
def Quint24DCRegisters : List RegEntry := [
  OUT_LX_Remote,
  { name := "OUT_LX_BatteryMode", addr := 0x7401, rtype := some "bool" },
  { name := "OUT_LX_ShutdownEvent", addr := 0x7402, rtype := some "bool" },
  { name := "OUT_LX_BatteryCharging", addr := 0x7403, rtype := some "bool" },
  { name := "OUT_LUI_PowerSourceBoost", addr := 0x7406, rtype := some "state",
    values := some (ValuesField.map
      [(0, "I > Inominal"), (1, "I < Inominal"), (2, "not connected")]) },
  { name := "OUT_LUI_OutputVoltage", addr := 0x7431, rtype := some "int",
    unit := some "mV", max := some 30000 },
  { name := "OUT_LUI_SocStateOfCharge", addr := 0x7435, rtype := some "int",
    unit := some "%", values := some (ValuesField.map [(65535, "not initialized")]) },
  { name := "OUT_LUI_SocStateResidualBackupTime", addr := 0x7436, rtype := some "int",
    unit := some "minutes", values := some (ValuesField.map [(65535, "not initialized")]) },
  { name := "OUT_LUI_BatteryVoltage", addr := 0x7460, rtype := some "int",
    unit := some "mV", max := some 30000 },
  { name := "OUT_LUI_BatteryTemperature", addr := 0x7461, rtype := some "int",
    unit := some "Kelvin", min := some 200, max := some 400 },
  { name := "OUT_LUI_OutputVoltage2", addr := 0x7462, rtype := some "int",
    unit := some "mV", max := some 3000 },
  { name := "OUT_LUI_SocStateResidualBackupTimeS", addr := 0x7463, rtype := some "int",
    unit := some "seconds", values := some (ValuesField.map [(65535, "not initialized")]) },
  { name := "OUT_LUDI_BatteryNormCapacityWs", addr := 0x7464, rtype := some "int",
    unit := some "100Ws", values := some (ValuesField.map [(65535, "not detected")]) },
  { name := "OUT_LUI_BatteryDischaCurrent", addr := 0x7466, rtype := some "int",
    unit := some "mA" },
  { name := "OUT_LUI_BatteryDetectedUnits", addr := 0x7467, rtype := some "int",
    max := some 15 },
  { name := "OUT_LUDI_BatteryNormCapacitymAh", addr := 0x7468, rtype := some "int",
    unit := some "100mAh", values := some (ValuesField.map [(65535, "not detected")]) },
  OUT_LUI_BatteryInstalledType,
  { name := "OUT_LUDW_ActualAlarm", addr := 0x7490, rtype := some "bits", length := 2,
    bits := [(0, "end of life (SOH)"), (4, "end of life (Resistance)"),
      (5, "end of life (Resistance)"), (6, "end of life (Time)"),
      (7, "end of life (Voltage)"), (9, "no battery"), (10, "inconsistent technology"),
      (11, "overload cutoff"), (12, "low battery (Voltage)"), (13, "low battery (Charge)"),
      (14, "low battery (Time)"), (16, "service")] },
  { name := "OUT_LUDW_ActualWarning", addr := 0x7494, rtype := some "bits",
    bits := [(0, "end of life (SOH)"), (7, "inconsistent capacity"),
      (8, "less batteries"), (12, "low battery (Voltage)"), (13, "low battery (Charge)"),
      (14, "low battery (Time)"), (15, "service without battery registration")] },
  { name := "FW_VERSION", addr := 0x1602 },
  { name := "BAT_INSTALLED_CAPACITY_NOMINAL", addr := 0x1611, unit := some "100mAh" },
  TIME_LIMIT_MODE_CUSTOM_BUFFER_TIME,
  { name := "COUNTER_BATTERY_MODE_EVENT", addr := 0x6C00, length := 2 },
  { name := "COUNTER_OPERATION_TIME", addr := 0x6c0c, length := 2 },
  { name := "COUNTER_USER_OPERATION_TIME", addr := 0x6c10, length := 2 },
  { name := "STATUS_SERVICE", addr := 0x7405,
    values := some (ValuesField.map [(0, "not in service mode"), (1, "service mode by key"),
      (2, "service mode by stick"), (3, "service mode by PC")]) },
  { name := "INPUT_ACTUAL_VOLTAGE", addr := 0x7430, rtype := some "int", unit := some "mV" },
  { name := "ACTUAL_CURRENT_CHARGING", addr := 0x7465, rtype := some "int", unit := some "mA" },
  { name := "BATTERY_ACTUAL_TEMPERATURE", addr := 0x7473, rtype := some "int",
    unit := some "Kelvin" },
  { name := "BATTERY_ACTUAL_ALL_VOLTAGE", addr := 0x7472, rtype := some "int",
    unit := some "mV" },
  { name := "BATTERY_ACTUAL_INTERNAL_VOLTAGE", addr := 0x7477, rtype := some "int",
    unit := some "mV" },
  { name := "ERROR_CODE_COUNTER", addr := 0x749A },
  { name := "SET_SERVICE_MODE_BY_PC", addr := 0x7873 }]

/-- The fixed monitor ranges (source lines 259-263). -/
def Quint24DCMonitorRegisters : List (Nat × Nat) :=
  [(0x6c00, 0x6c50), (0x7400, 0x74a0), (0x7800, 0x78a0)]

/-- Multi-word assembly loop of the source (`value |= values[i] << (16*i)`,
after `value = 0`): `orUpTo vals n` is the accumulator after `n` iterations. -/
def orUpTo (vals : List Nat) : Nat → Nat
  | 0 => 0
  | n + 1 => orUpTo vals n ||| (vals.getD n 0 <<< (16 * n))

/-- Value assembly as written in `print_value` (source lines 354-360) and
repeated verbatim in the monitor branch (source lines 474-479): a single-word
list yields its word, otherwise the or-shift loop runs over the whole list. -/
def assembleWords (vals : List Nat) : Nat :=
  if vals.length = 1 then vals.getD 0 0 else orUpTo vals vals.length

/-- The spec's formula for assembly: sum over all indices of
`words[i] * 2 ^ (16 * i)`. -/
def assembleSum (vals : List Nat) : Nat :=
  ((List.range vals.length).map (fun i => vals.getD i 0 * 2 ^ (16 * i))).sum

/-- Unit suffix used when `print_value` prints an `int`-typed (or untyped)
value (source lines 371 and 379). -/
def unitSuffix (e : RegEntry) : String :=
  match e.unit with
  | some u => " " ++ u
  | none => ""

/-- The branches of `print_value` that run when the entry's `values` field does
not decide the output: `bool` truthiness, `int` with unit, `bits` raw integer,
and the final fallback (source lines 368-379). -/
def decodeFallback (e : RegEntry) (value : Nat) : String :=
  if e.rtype = some "bool" then (if value ≠ 0 then "on" else "off")
  else if e.rtype = some "int" then toString value ++ unitSuffix e
  else if e.rtype = some "bits" then toString value
  else toString value ++ unitSuffix e

/-- Decode dispatch of `print_value` (source lines 364-379): a `values` dict
containing the value wins, else a callable `values` field is applied, else the
type-directed fallback runs. -/
def decodeValue (e : RegEntry) (value : Nat) : String :=
  match e.values with
  | some (ValuesField.map m) =>
    match m.lookup value with
    | some s => s
    | none => decodeFallback e value
  | some (ValuesField.fn f) => f value
  | none => decodeFallback e value

/-- The per-bit description lines printed for a `bits`-typed entry
(source lines 375-377). -/
def bitDescriptions (e : RegEntry) (value : Nat) : List String :=
  (e.bits.filter (fun bd => (value >>> bd.1) % 2 == 1)).map (fun bd => " - " ++ bd.2)

/-- The monitor's `rel_change` helper (source lines 443-444):
`abs(new - old) / old`, over the rationals. -/
def relChange (old new : Nat) : Rat :=
  |(new : Rat) - (old : Rat)| / (old : Rat)

/-- The monitor's per-address reporting decision when a prior value `p` exists
(source lines 482-487 and 495-500):
`show = prior != value`, then (if a relative threshold is configured, the
current `show` holds and the prior is nonzero) `show` is replaced by the
relative comparison, then (if an absolute threshold is configured and the
current `show` holds) `show` is replaced by the absolute comparison. -/
def showWith (p v : Nat) (minRel minAbs : Option Rat) : Bool :=
  let s1 : Bool := decide (v ≠ p)
  let s2 : Bool :=
    match minRel with
    | none => s1
    | some r => if s1 && decide (p ≠ 0) then decide (relChange p v > r) else s1
  match minAbs with
  | none => s2
  | some t => if s2 then decide (|(v : Rat) - (p : Rat)| > t) else s2

/-- A boolean gate of the form `show = check if show else show` can only be
true when both the incoming `show` and the check hold. -/
lemma gateIf {c d : Bool} (h : (if c then d else c) = true) : c = true ∧ d = true := by
  cases c <;> simp_all

/-- A boolean gate of the form `show = check if (show and q) else show` can
only be true when the incoming `show` holds, and the check holds if `q` does. -/
lemma gateAnd {s q d : Bool} (h : (if s && q then d else s) = true) :
    s = true ∧ (q = true → d = true) := by
  cases s <;> cases q <;> simp_all

/-- The source's `rel_change(old, new)` divides by `old`; since register
values are nonnegative this equals the division by `|old|`. -/
lemma relChange_eq_abs (p v : Nat) :
    relChange p v = |(v : Rat) - (p : Rat)| / |(p : Rat)| := by
  rw [relChange, Nat.abs_cast]

/-- Reporting with an absolute threshold configured forces the strict
absolute-difference inequality. -/
lemma showWith_abs_strict (p v : Nat) (mr : Option Rat) (t : Rat)
    (h : showWith p v mr (some t) = true) : |(v : Rat) - (p : Rat)| > t := by
  simp only [showWith] at h
  exact of_decide_eq_true (gateIf h).2

/-- Reporting with a relative threshold configured and a nonzero prior forces
the strict relative-change inequality. -/
lemma showWith_rel_strict (p v : Nat) (r : Rat) (ma : Option Rat) (hp : p ≠ 0)
    (h : showWith p v (some r) ma = true) :
    |(v : Rat) - (p : Rat)| / |(p : Rat)| > r := by
  have hs2 : (if decide (v ≠ p) && decide (p ≠ 0) then decide (relChange p v > r)
      else decide (v ≠ p)) = true := by
    cases ma with
    | none => simpa only [showWith] using h
    | some t =>
      simp only [showWith] at h
      exact (gateIf h).1
  have h2 := gateAnd hs2
  have h3 := h2.2 (decide_eq_true hp)
  rw [← relChange_eq_abs]
  exact of_decide_eq_true h3

/-- An unchanged value is never reported, for any threshold configuration. -/
lemma showWith_self (p : Nat) (mr ma : Option Rat) : showWith p p mr ma = false := by
  simp only [showWith]
  cases mr <;> cases ma <;> simp

/-- With both thresholds configured and a nonzero prior, a value is reported
iff it changed, the relative check passes, and the absolute check passes:
the absolute gate only runs when the relative gate already passed. -/
lemma showWith_both_iff (p v : Nat) (r t : Rat) (hp : p ≠ 0) :
    showWith p v (some r) (some t) = true ↔
      (v ≠ p ∧ |(v : Rat) - (p : Rat)| / |(p : Rat)| > r ∧ |(v : Rat) - (p : Rat)| > t) := by
  simp only [showWith, ← relChange_eq_abs]
  by_cases h1 : v = p
  · simp [h1]
  · by_cases h2 : relChange p v > r <;> simp [h1, h2, hp]

/-- C1: in the monitor loop after warm-up, for an address with prior `p` and
new value `v`: with no thresholds the value is reported iff `v ≠ p`; a
configured relative threshold `r` with nonzero prior additionally requires
`|v - p| / |p| > r` strictly; a configured absolute threshold `t` additionally
requires `|v - p| > t` strictly.  Concretely: `p=100, v=100` is never reported;
`p=100, v=105` with no thresholds is reported; with absolute threshold 10,
`v=105` is not reported and `v=111` is; with relative threshold 0.05, `v=104`
is not reported and `v=106` is. -/
theorem monitor_threshold_reporting :
    (∀ p v : Nat, showWith p v none none = true ↔ v ≠ p)
    ∧ (∀ (p v : Nat) (r : Rat) (ma : Option Rat), p ≠ 0 →
        showWith p v (some r) ma = true → |(v : Rat) - (p : Rat)| / |(p : Rat)| > r)
    ∧ (∀ (p v : Nat) (mr : Option Rat) (t : Rat),
        showWith p v mr (some t) = true → |(v : Rat) - (p : Rat)| > t)
    ∧ (∀ mr ma : Option Rat, showWith 100 100 mr ma = false)
    ∧ showWith 100 105 none none = true
    ∧ showWith 100 105 none (some 10) = false
    ∧ showWith 100 111 none (some 10) = true
    ∧ showWith 100 104 (some (5/100)) none = false
    ∧ showWith 100 106 (some (5/100)) none = true := by
  refine ⟨fun p v => by simp [showWith],
    fun p v r ma hp h => showWith_rel_strict p v r ma hp h,
    fun p v mr t h => showWith_abs_strict p v mr t h,
    fun mr ma => showWith_self 100 mr ma,
    by decide,
    by simp only [showWith]; norm_num [relChange],
    by simp only [showWith]; norm_num [relChange],
    by simp only [showWith]; norm_num [relChange],
    by simp only [showWith]; norm_num [relChange]⟩

/-- Witness for C1: instantiating the relative-threshold clause at
`p=100, v=111, r=1/20`. -/
theorem monitor_threshold_reporting_witness :
    |(111 : Rat) - (100 : Rat)| / |(100 : Rat)| > 1/20 :=
  monitor_threshold_reporting.2.1 100 111 (1/20) none (by norm_num)
    (by simp only [showWith]; norm_num [relChange])

/-- Counterexample to C2 as stated: with relative threshold 0.05 and absolute
threshold 0.5, prior 100 and new value 101, the absolute difference exceeds
the absolute threshold (1 > 0.5), yet the value is not reported, because the
failing relative check already cleared `show` and the absolute check is then
skipped rather than overriding it. -/
theorem monitor_abs_not_independent_counterexample :
    showWith 100 101 (some (5/100)) (some (1/2)) = false
    ∧ |(101 : Rat) - (100 : Rat)| > 1/2
    ∧ (100 : Nat) ≠ 0 := by
  refine ⟨by simp only [showWith]; norm_num [relChange], by norm_num, by norm_num⟩

/-- C2 (amended): with both thresholds configured and a nonzero prior, the
absolute check runs only when the inequality and relative checks already
passed; a value is reported iff `v ≠ p`, the relative change strictly exceeds
`r`, and the absolute change strictly exceeds `t`.  The absolute check narrows
the relative result but does not override it. -/
theorem monitor_abs_after_rel (p v : Nat) (r t : Rat) (hp : p ≠ 0) :
    showWith p v (some r) (some t) = true ↔
      (v ≠ p ∧ |(v : Rat) - (p : Rat)| / |(p : Rat)| > r ∧ |(v : Rat) - (p : Rat)| > t) :=
  showWith_both_iff p v r t hp

/-- Witness for the amended C2 at `p=100, v=111, r=1/20, t=1/2`. -/
theorem monitor_abs_after_rel_witness :
    showWith 100 111 (some (1/20)) (some (1/2)) = true :=
  (monitor_abs_after_rel 100 111 (1/20) (1/2) (by norm_num)).mpr
    ⟨by norm_num, by norm_num, by norm_num⟩

/-- Or-ing a value below `2 ^ k` with a value shifted left by `k` is ordinary
addition: the two operands occupy disjoint bit ranges. -/
lemma lor_shift_eq_add {x : Nat} (y k : Nat) (hx : x < 2 ^ k) :
    x ||| (y <<< k) = x + y * 2 ^ k := by
  rw [Nat.shiftLeft_eq, Nat.lor_comm, mul_comm y (2 ^ k), ← Nat.mul_add_lt_is_or hx y]
  ring

/-- Indexing with default 0 preserves a uniform word bound. -/
lemma getD_lt_of_forall {vals : List Nat} (h : ∀ w ∈ vals, w < 2 ^ 16) (i : Nat) :
    vals.getD i 0 < 2 ^ 16 := by
  cases hx : vals[i]? with
  | none => rw [List.getD_eq_getElem?_getD, hx]; norm_num
  | some w =>
    rw [List.getD_eq_getElem?_getD, hx]
    exact h w (List.getElem?_mem hx)

/-- After `n` iterations, the source's or-shift accumulation loop holds the
little-endian weighted sum of the first `n` words, and that sum stays below
`2 ^ (16 * n)`. -/
lemma orUpTo_eq_sum (vals : List Nat) (hw : ∀ i, vals.getD i 0 < 2 ^ 16) (n : Nat) :
    orUpTo vals n = ((List.range n).map (fun i => vals.getD i 0 * 2 ^ (16 * i))).sum
    ∧ ((List.range n).map (fun i => vals.getD i 0 * 2 ^ (16 * i))).sum < 2 ^ (16 * n) := by
  induction n with
  | zero => simp [orUpTo]
  | succ n ih =>
    obtain ⟨ih1, ih2⟩ := ih
    have hsum : ((List.range (n+1)).map (fun i => vals.getD i 0 * 2 ^ (16 * i))).sum
        = ((List.range n).map (fun i => vals.getD i 0 * 2 ^ (16 * i))).sum
          + vals.getD n 0 * 2 ^ (16 * n) := by
      rw [List.range_succ, List.map_append, List.sum_append]
      simp
    constructor
    · rw [orUpTo, ih1, hsum, lor_shift_eq_add _ _ ih2]
    · rw [hsum]
      have step1 : ((List.range n).map (fun i => vals.getD i 0 * 2 ^ (16 * i))).sum
          + vals.getD n 0 * 2 ^ (16 * n)
          < 2 ^ (16 * n) + vals.getD n 0 * 2 ^ (16 * n) :=
        Nat.add_lt_add_right ih2 _
      have step2 : 2 ^ (16 * n) + vals.getD n 0 * 2 ^ (16 * n)
          = (vals.getD n 0 + 1) * 2 ^ (16 * n) := by ring
      have step3 : (vals.getD n 0 + 1) * 2 ^ (16 * n) ≤ 2 ^ 16 * 2 ^ (16 * n) :=
        Nat.mul_le_mul_right _ (hw n)
      have step4 : 2 ^ 16 * 2 ^ (16 * n) = 2 ^ (16 * (n + 1)) := by
        rw [← pow_add]
        congr 1
        ring
      calc ((List.range n).map (fun i => vals.getD i 0 * 2 ^ (16 * i))).sum
            + vals.getD n 0 * 2 ^ (16 * n)
          < 2 ^ (16 * n) + vals.getD n 0 * 2 ^ (16 * n) := step1
        _ = (vals.getD n 0 + 1) * 2 ^ (16 * n) := step2
        _ ≤ 2 ^ 16 * 2 ^ (16 * n) := step3
        _ = 2 ^ (16 * (n + 1)) := step4

/-- C4: for every non-empty list of 16-bit words, the assembled logical value
equals the sum over all indices `i` of `words[i] * 2 ^ (16 * i)`
(least-significant word first); a single-word list assembles to `words[0]`
unchanged, and a two-word list assembles to `words[0] + words[1] * 65536`.
`assembleWords` is the assembly loop shared (verbatim in the source) by
`print_value` and the monitor branch. -/
theorem assemble_is_lsw_first_sum :
    (∀ vals : List Nat, vals ≠ [] → (∀ w ∈ vals, w < 2 ^ 16) →
        assembleWords vals = assembleSum vals)
    ∧ (∀ w : Nat, assembleWords [w] = w)
    ∧ (∀ a b : Nat, a < 2 ^ 16 → assembleWords [a, b] = a + b * 65536) := by
  refine ⟨fun vals hne hw => ?_, fun w => rfl, fun a b ha => ?_⟩
  · have hw' : ∀ i, vals.getD i 0 < 2 ^ 16 := getD_lt_of_forall hw
    rw [assembleWords, assembleSum]
    by_cases h1 : vals.length = 1
    · rw [if_pos h1, h1]
      simp [List.range_succ]
    · rw [if_neg h1]
      exact (orUpTo_eq_sum vals hw' vals.length).1
  · have h2 : assembleWords [a, b] = orUpTo [a, b] 2 := rfl
    rw [h2]
    show orUpTo [a, b] 1 ||| [a, b].getD 1 0 <<< (16 * 1) = a + b * 65536
    have h3 : orUpTo [a, b] 1 = a := by
      show orUpTo [a, b] 0 ||| [a, b].getD 0 0 <<< (16 * 0) = a
      simp [orUpTo]
    rw [h3]
    show a ||| b <<< 16 = a + b * 65536
    rw [lor_shift_eq_add b 16 ha]
    norm_num

/-- Witness for C4: the general sum form at `[3, 5]` and the two-word form at
`[7, 9]`. -/
theorem assemble_is_lsw_first_sum_witness :
    assembleWords [3, 5] = assembleSum [3, 5] ∧ assembleWords [7, 9] = 7 + 9 * 65536 :=
  ⟨assemble_is_lsw_first_sum.1 [3, 5] (by simp) (by norm_num),
    assemble_is_lsw_first_sum.2.2 7 9 (by norm_num)⟩

/-- C8: decoding a Bool-kind register honors its value map whenever the map is
present and maps the raw value (the catalog's `OUT_LX_Remote` maps 0 to "on"),
and falls back to the generic rule (zero is "off", nonzero is "on") when no
map is given for the entry. -/
theorem bool_decode_honors_valuemap :
    decodeValue OUT_LX_Remote 0 = "on"
    ∧ decodeValue OUT_LX_Remote 1 = "off"
    ∧ (∀ (e : RegEntry) (m : List (Nat × String)) (v : Nat) (s : String),
        e.values = some (ValuesField.map m) → m.lookup v = some s → decodeValue e v = s)
    ∧ (∀ (e : RegEntry) (v : Nat), e.values = none → e.rtype = some "bool" →
        decodeValue e v = if v ≠ 0 then "on" else "off") := by
  refine ⟨rfl, rfl, fun e m v s h1 h2 => ?_, fun e v h1 h2 => ?_⟩
  · simp only [decodeValue, h1, h2]
  · simp only [decodeValue, h1, decodeFallback, h2]
    simp

/-- Witness for C8: the map clause at `OUT_LX_Remote` with raw value 0, and the
generic clause at a map-less bool entry with raw value 5. -/
theorem bool_decode_honors_valuemap_witness :
    decodeValue OUT_LX_Remote 0 = "on"
    ∧ decodeValue { name := "B", addr := 0, rtype := some "bool" } 5
        = (if (5 : Nat) ≠ 0 then "on" else "off") :=
  ⟨bool_decode_honors_valuemap.2.2.1 OUT_LX_Remote [(0, "on"), (1, "off")] 0 "on" rfl rfl,
    bool_decode_honors_valuemap.2.2.2 { name := "B", addr := 0, rtype := some "bool" } 5 rfl rfl⟩

/-- C9: the State-kind battery-type register decodes through its classification
function with thresholds in descending order: above 18000 "Capacitor", above
11000 "Lithium battery", above 1000 "Lead battery", otherwise "unknown";
concretely 19000, 12000, 5000 and 500 give the four outcomes. -/
theorem battery_type_descending_thresholds :
    decodeValue OUT_LUI_BatteryInstalledType 19000 = "Capacitor"
    ∧ decodeValue OUT_LUI_BatteryInstalledType 12000 = "Lithium battery"
    ∧ decodeValue OUT_LUI_BatteryInstalledType 5000 = "Lead battery"
    ∧ decodeValue OUT_LUI_BatteryInstalledType 500 = "unknown"
    ∧ (∀ v : Nat, decodeValue OUT_LUI_BatteryInstalledType v =
        if v > 18000 then "Capacitor"
        else if v > 11000 then "Lithium battery"
        else if v > 1000 then "Lead battery"
        else "unknown") :=
  ⟨rfl, rfl, rfl, rfl, fun _ => rfl⟩

/-- One emitted item of the `dumpall` scan: a catalog-matched entry printed by
name with its decoded line, or a raw unmatched address with its read words.
The address at which the loop emitted the item is recorded in both cases. -/
inductive DumpOut where
  | known (addr : Nat) (name : String) (line : String)
  | raw (addr : Nat) (values : List Nat)
deriving DecidableEq

/-- The loop address at which a `dumpall` item was emitted. -/
def entryAddr : DumpOut → Nat
  | DumpOut.known a _ _ => a
  | DumpOut.raw a _ => a

/-- The `dumpall` loop (source lines 408-426): starting at an address `i`, it
reads ONE word (`readRegister(i)` with the default `count=1`), looks for the
first catalog entry with `addr == i`; on a match it prints the entry decoded
from that single word and advances by the entry's length
(`i += length - 1` followed by `i += 1`); otherwise it prints a raw item
unless the word is the sentinel 0xFFFF, and advances by 1.  The loop stops at
0x7500.  The model also returns the list of `(address, word count)` read
requests issued to the transport, and takes a fuel argument bounding the
number of iterations (256 fuel covers the whole range, as every iteration
advances by at least one address). -/
def dumpallScan (mem : Nat → Nat) (catalog : List RegEntry) :
    Nat → Nat → List DumpOut × List (Nat × Nat)
  | 0, _ => ([], [])
  | fuel + 1, i =>
    if i < 0x7500 then
      match catalog.find? (fun e => e.addr == i) with
      | some e =>
        (DumpOut.known i e.name (decodeValue e (assembleWords [mem i]))
            :: (dumpallScan mem catalog fuel (i + (e.length - 1) + 1)).1,
          (i, 1) :: (dumpallScan mem catalog fuel (i + (e.length - 1) + 1)).2)
      | none =>
        ((if [mem i] ≠ [65535] then [DumpOut.raw i [mem i]] else [])
            ++ (dumpallScan mem catalog fuel (i + 1)).1,
          (i, 1) :: (dumpallScan mem catalog fuel (i + 1)).2)
    else ([], [])

/-- Scan items are emitted at the current loop address or later: the cursor
only moves forward. -/
lemma dumpall_addr_ge (mem : Nat → Nat) (catalog : List RegEntry) :
    ∀ (fuel i : Nat) (o : DumpOut), o ∈ (dumpallScan mem catalog fuel i).1 → i ≤ entryAddr o := by
  intro fuel
  induction fuel with
  | zero => intro i o h; simp [dumpallScan] at h
  | succ fuel ih =>
    intro i o h
    rw [dumpallScan] at h
    by_cases hi : i < 0x7500
    · rw [if_pos hi] at h
      cases hfind : catalog.find? (fun e => e.addr == i) with
      | some e =>
        rw [hfind] at h
        simp only [List.mem_cons] at h
        rcases h with h | h
        · subst h; simp [entryAddr]
        · have h2 := ih _ _ h
          omega
      | none =>
        rw [hfind] at h
        simp only [List.mem_append] at h
        rcases h with h | h
        · split at h
          · simp only [List.mem_singleton] at h
            subst h; simp [entryAddr]
          · simp at h
        · have h2 := ih _ _ h
          omega
    · rw [if_neg hi] at h
      simp at h

/-- An address with no catalog entry whose word reads as the sentinel 0xFFFF
never yields an emitted item, no matter where the scan starts. -/
lemma dumpall_sentinel_suppressed (mem : Nat → Nat) (catalog : List RegEntry) (a : Nat)
    (hfind : catalog.find? (fun e => e.addr == a) = none)
    (hmem : mem a = 65535) :
    ∀ (fuel i : Nat) (o : DumpOut), o ∈ (dumpallScan mem catalog fuel i).1 → entryAddr o ≠ a := by
  intro fuel
  induction fuel with
  | zero => intro i o h; simp [dumpallScan] at h
  | succ fuel ih =>
    intro i o h
    rw [dumpallScan] at h
    by_cases hi : i < 0x7500
    · rw [if_pos hi] at h
      by_cases hia : i = a
      · subst hia
        rw [hfind] at h
        simp only [List.mem_append] at h
        rcases h with h | h
        · rw [hmem] at h
          simp at h
        · have h2 := dumpall_addr_ge mem catalog _ _ _ h
          omega
      · cases hfind2 : catalog.find? (fun e => e.addr == i) with
        | some e =>
          rw [hfind2] at h
          simp only [List.mem_cons] at h
          rcases h with h | h
          · subst h; simpa [entryAddr] using hia
          · exact ih _ _ h
        | none =>
          rw [hfind2] at h
          simp only [List.mem_append] at h
          rcases h with h | h
          · split at h
            · simp only [List.mem_singleton] at h
              subst h; simpa [entryAddr] using hia
            · simp at h
          · exact ih _ _ h
    · rw [if_neg hi] at h
      simp at h

/-- A visited unmatched address with a non-sentinel word emits a raw item. -/
lemma dumpall_unmatched_step (mem : Nat → Nat) (catalog : List RegEntry) (fuel a : Nat)
    (ha : a < 0x7500) (hfind : catalog.find? (fun e => e.addr == a) = none)
    (hmem : mem a ≠ 65535) :
    DumpOut.raw a [mem a] ∈ (dumpallScan mem catalog (fuel + 1) a).1 := by
  rw [dumpallScan, if_pos ha, hfind]
  simp [hmem]

/-- One unfolding of the scan at a visited catalog-matched address: a single
one-word read request at that address, the entry decoded from that single
word, and the cursor advanced by `(length - 1) + 1`. -/
lemma dumpall_matched_step (mem : Nat → Nat) (catalog : List RegEntry) (fuel i : Nat)
    (e : RegEntry) (hi : i < 0x7500)
    (hfind : catalog.find? (fun e2 => e2.addr == i) = some e) :
    dumpallScan mem catalog (fuel + 1) i
      = (DumpOut.known i e.name (decodeValue e (assembleWords [mem i]))
          :: (dumpallScan mem catalog fuel (i + (e.length - 1) + 1)).1,
        (i, 1) :: (dumpallScan mem catalog fuel (i + (e.length - 1) + 1)).2) := by
  rw [dumpallScan, if_pos hi, hfind]

/-- Counterexample to C6 as stated: address 0x7491 has no matching catalog
entry and reads 0x1234 (not the sentinel), yet the real scan over
0x7400-0x7500 emits no item at 0x7491 — it is skipped because the two-word
entry `OUT_LUDW_ActualAlarm` at 0x7490 advances the cursor past it. -/
theorem dumpall_unmatched_raw_counterexample :
    Quint24DCRegisters.all (fun e => e.addr != 0x7491) = true
    ∧ (0x1234 : Nat) ≠ 65535
    ∧ (dumpallScan (fun _ => 0x1234) Quint24DCRegisters 0x100 0x7400).1.all
        (fun o => entryAddr o != 0x7491) = true := by
  refine ⟨by decide, by decide, by set_option maxRecDepth 8000 in decide⟩

/-- C6 (amended): in the full-range scan, an unmatched address whose single
read word is 0xFFFF never produces an output item; an unmatched address that
the scan actually visits (i.e. that the cursor reaches, rather than being
covered by a preceding multi-word entry's span) produces a raw item for any
other word value; and sentinel suppression is never applied at
catalog-matched addresses — a matched entry is emitted whatever its word,
concretely `OUT_LUI_SocStateOfCharge` reading 65535 is still decoded
("not initialized") and emitted. -/
theorem dumpall_sentinel_only_unmatched :
    (∀ (catalog : List RegEntry) (mem : Nat → Nat) (a : Nat),
        catalog.find? (fun e => e.addr == a) = none → mem a = 65535 →
        ∀ (fuel i : Nat) (o : DumpOut),
          o ∈ (dumpallScan mem catalog fuel i).1 → entryAddr o ≠ a)
    ∧ (∀ (catalog : List RegEntry) (mem : Nat → Nat) (fuel a : Nat),
        a < 0x7500 → catalog.find? (fun e => e.addr == a) = none → mem a ≠ 65535 →
        DumpOut.raw a [mem a] ∈ (dumpallScan mem catalog (fuel + 1) a).1)
    ∧ (∀ (catalog : List RegEntry) (mem : Nat → Nat) (fuel i : Nat) (e : RegEntry),
        i < 0x7500 → catalog.find? (fun e2 => e2.addr == i) = some e →
        DumpOut.known i e.name (decodeValue e (assembleWords [mem i]))
          ∈ (dumpallScan mem catalog (fuel + 1) i).1)
    ∧ DumpOut.known 0x7435 "OUT_LUI_SocStateOfCharge" "not initialized"
        ∈ (dumpallScan (fun _ => 65535) Quint24DCRegisters 0x100 0x7400).1 := by
  refine ⟨fun catalog mem a h1 h2 fuel i o h3 =>
      dumpall_sentinel_suppressed mem catalog a h1 h2 fuel i o h3,
    fun catalog mem fuel a h1 h2 h3 => dumpall_unmatched_step mem catalog fuel a h1 h2 h3,
    fun catalog mem fuel i e h1 h2 => ?_, ?_⟩
  · rw [dumpall_matched_step mem catalog fuel i e h1 h2]
    exact List.mem_cons_self _ _
  · set_option maxRecDepth 8000 in decide

/-- Witness for the amended C6: a visited unmatched address with word 7
produces the raw item. -/
theorem dumpall_sentinel_only_unmatched_witness :
    DumpOut.raw 0x7400 [7] ∈ (dumpallScan (fun _ => 7) [] 1 0x7400).1 :=
  dumpall_sentinel_only_unmatched.2.1 [] (fun _ => 7) 0 0x7400 (by norm_num) rfl (by norm_num)

/-- Counterexample to C7 as stated: the entry at 0x7490 has Length 2, yet the
scan's transport request at 0x7490 asks for one word, not two — `dumpall`
calls `readRegister(i)` with the default `count=1` and never re-reads with the
entry's length. -/
theorem dumpall_reads_single_word_counterexample :
    (Quint24DCRegisters.find? (fun e => e.addr == 0x7490)).map (fun e => (e.name, e.length))
      = some ("OUT_LUDW_ActualAlarm", 2)
    ∧ ((0x7490, 1) ∈ (dumpallScan (fun _ => 0) Quint24DCRegisters 0x100 0x7400).2)
    ∧ ¬ ((0x7490, 2) ∈ (dumpallScan (fun _ => 0) Quint24DCRegisters 0x100 0x7400).2) := by
  refine ⟨by decide, by set_option maxRecDepth 8000 in decide,
    by set_option maxRecDepth 8000 in decide⟩

/-- C7 (amended): at every visited address matching a catalog entry (of any
Length, including Length > 1), the scanner issues a single one-word read at
that address, decodes the entry from that single word, and advances the
address by Length. -/
theorem dumpall_matched_reads_one_word :
    ∀ (catalog : List RegEntry) (mem : Nat → Nat) (fuel i : Nat) (e : RegEntry),
      i < 0x7500 → catalog.find? (fun e2 => e2.addr == i) = some e →
      dumpallScan mem catalog (fuel + 1) i
        = (DumpOut.known i e.name (decodeValue e (assembleWords [mem i]))
            :: (dumpallScan mem catalog fuel (i + (e.length - 1) + 1)).1,
          (i, 1) :: (dumpallScan mem catalog fuel (i + (e.length - 1) + 1)).2)
      ∧ (1 ≤ e.length → i + (e.length - 1) + 1 = i + e.length) :=
  fun catalog mem fuel i e h1 h2 =>
    ⟨dumpall_matched_step mem catalog fuel i e h1 h2, fun h3 => by omega⟩

/-- Witness for the amended C7 at a one-entry catalog. -/
theorem dumpall_matched_reads_one_word_witness :
    dumpallScan (fun _ => 0) [OUT_LX_Remote] 1 0x7400
      = (DumpOut.known 0x7400 OUT_LX_Remote.name
            (decodeValue OUT_LX_Remote (assembleWords [0]))
          :: (dumpallScan (fun _ => 0) [OUT_LX_Remote] 0
                (0x7400 + (OUT_LX_Remote.length - 1) + 1)).1,
        (0x7400, 1) :: (dumpallScan (fun _ => 0) [OUT_LX_Remote] 0
                (0x7400 + (OUT_LX_Remote.length - 1) + 1)).2)
      ∧ (1 ≤ OUT_LX_Remote.length
          → 0x7400 + (OUT_LX_Remote.length - 1) + 1 = 0x7400 + OUT_LX_Remote.length) :=
  dumpall_matched_reads_one_word [OUT_LX_Remote] (fun _ => 0) 0 0x7400 OUT_LX_Remote
    (by norm_num) rfl

/-- The possible outcomes of one pymodbus call as `readRegister` /
`writeRegister` observe them (source lines 303-348): a normal response with
registers, a raised `ModbusException`, a response with `isError()`, or a
well-formed Modbus `ExceptionResponse`. -/
inductive MbResponse where
  | ok (registers : List Nat)
  | raisedException
  | errorResponse
  | exceptionResponse
deriving DecidableEq

/-- `QuintUPS.readRegister` (source lines 303-326) as a function of the
transport's response: a normal response yields its registers; each failure
kind yields no value plus a diagnostic line (and closes the client, not
modelled).  No failure escapes as an exception. -/
def readRegister : MbResponse → Option (List Nat) × List String
  | MbResponse.ok regs => (some regs, [])
  | MbResponse.raisedException => (none, ["Received ModbusException from library"])
  | MbResponse.errorResponse => (none, ["Received Modbus library error"])
  | MbResponse.exceptionResponse => (none, ["Received Modbus library exception"])

/-- `QuintUPS.writeRegister` (source lines 328-348): `True` on success,
no value plus a diagnostic line on each failure kind. -/
def writeRegister : MbResponse → Option Bool × List String
  | MbResponse.ok _ => (some true, [])
  | MbResponse.raisedException => (none, ["Received ModbusException from library"])
  | MbResponse.errorResponse => (none, ["Received Modbus library error"])
  | MbResponse.exceptionResponse => (none, ["Received Modbus library exception"])

/-- `readRegister` turns a requested count of 0 into 0x10 (source lines
304-306). -/
def readCount (count : Nat) : Nat := if count = 0 then 0x10 else count

/-- A read through a transport modelled as a function from (address, count)
to a response. -/
def readRegisterVia (read : Nat → Nat → MbResponse) (addr count : Nat) :
    Option (List Nat) × List String :=
  readRegister (read addr (readCount count))

/-- The monitor's buffer-filling loop (source lines 448-450): extend `values`
with `readRegister(start + len(values), count=0)` until the range is covered.
A failed read returns `None`, and `values.extend(None)` raises a `TypeError`
in the source, aborting the cycle: modelled as `none`.  The fuel argument
bounds the iteration count (the source loops forever if the transport keeps
returning empty lists; running out of fuel is also modelled as `none`). -/
def fillRange (read : Nat → Nat → MbResponse) (start need : Nat) :
    Nat → List Nat → Option (List Nat)
  | 0, acc => if acc.length < need then none else some acc
  | fuel + 1, acc =>
    if acc.length < need then
      match (readRegisterVia read (start + acc.length) 0).1 with
      | none => none
      | some regs => fillRange read start need fuel (acc ++ regs)
    else some acc

/-- The monitor's configuration: the optional thresholds and the resolved
skip-address list. -/
structure MonCfg where
  minRel : Option Rat
  minAbs : Option Rat
  skip : List Nat

/-- One line the monitor prints: a catalog-matched entry by name with its
decoded text, or a raw address with its value (timestamp not modelled). -/
inductive Report where
  | known (name : String) (line : String)
  | raw (addr : Nat) (value : Nat)
deriving DecidableEq

/-- `prior[addr] = value` on a Python dict modelled as an association list
that keeps the original insertion position on overwrite. -/
def setPrior (prior : List (Nat × Nat)) (a v : Nat) : List (Nat × Nat) :=
  match prior with
  | [] => [(a, v)]
  | (k, w) :: rest => if k = a then (a, v) :: rest else (k, w) :: setPrior rest a v

/-- The reporting decision with `prior.get(addr, None)` as input.  With no
prior, `None != value` makes the first check true and the falsy `None` skips
the relative check; a configured absolute threshold would then raise a
`TypeError` (`None - value`) in the source — a state the loop does not reach,
since warm-up records a prior for every visited non-skipped address. -/
def showOpt (priorOpt : Option Nat) (v : Nat) (minRel minAbs : Option Rat) : Bool :=
  match priorOpt with
  | none => true
  | some p => showWith p v minRel minAbs

/-- The monitor's walk over one range's concatenated buffer (source lines
454-507): at index `idx` the address is `start + idx`; the first catalog
entry with that address fixes the step width (its length) and the value
grouping `values[idx:idx+length]`; skipped addresses advance without
recording; otherwise the (assembled) value is reported when not in the
warm-up pass and the threshold decision fires, and is always recorded as the
new prior.  Fuel bounds the iteration count (`values.length` suffices when
every catalog length is at least 1). -/
def walkBuffer (catalog : List RegEntry) (cfg : MonCfg) (first : Bool) (start : Nat)
    (values : List Nat) : Nat → Nat → List (Nat × Nat) → List (Nat × Nat) × List Report
  | 0, _, prior => (prior, [])
  | fuel + 1, idx, prior =>
    if idx < values.length then
      match catalog.find? (fun e => e.addr == start + idx) with
      | some e =>
        if cfg.skip.contains (start + idx) then
          walkBuffer catalog cfg first start values fuel (idx + e.length) prior
        else
          ((walkBuffer catalog cfg first start values fuel (idx + e.length)
              (setPrior prior (start + idx) (assembleWords ((values.drop idx).take e.length)))).1,
            (if first then []
             else if showOpt (prior.lookup (start + idx))
                 (assembleWords ((values.drop idx).take e.length)) cfg.minRel cfg.minAbs then
               [Report.known e.name (decodeValue e (assembleWords ((values.drop idx).take e.length)))]
             else [])
            ++ (walkBuffer catalog cfg first start values fuel (idx + e.length)
                (setPrior prior (start + idx)
                  (assembleWords ((values.drop idx).take e.length)))).2)
      | none =>
        if cfg.skip.contains (start + idx) then
          walkBuffer catalog cfg first start values fuel (idx + 1) prior
        else
          ((walkBuffer catalog cfg first start values fuel (idx + 1)
              (setPrior prior (start + idx) (values.getD idx 0))).1,
            (if first then []
             else if showOpt (prior.lookup (start + idx)) (values.getD idx 0)
                 cfg.minRel cfg.minAbs then
               [Report.raw (start + idx) (values.getD idx 0)]
             else [])
            ++ (walkBuffer catalog cfg first start values fuel (idx + 1)
                (setPrior prior (start + idx) (values.getD idx 0))).2)
    else (prior, [])

/-- One pass of the monitor over its range list (source lines 447-507): fill
each range's buffer, abort the whole remainder of the cycle if a read fails
(the source's `TypeError` on `extend(None)`), otherwise walk the buffer and
carry the updated priors to the next range. -/
def runRanges (read : Nat → Nat → MbResponse) (catalog : List RegEntry) (cfg : MonCfg)
    (first : Bool) : List (Nat × Nat) → List (Nat × Nat) → List Report × Option (List (Nat × Nat))
  | [], prior => ([], some prior)
  | (s, e) :: rest, prior =>
    match fillRange read s (e - s) (e - s) [] with
    | none => ([], none)
    | some vals =>
      ((walkBuffer catalog cfg first s vals vals.length 0 prior).2
          ++ (runRanges read catalog cfg first rest
              (walkBuffer catalog cfg first s vals vals.length 0 prior).1).1,
        (runRanges read catalog cfg first rest
            (walkBuffer catalog cfg first s vals vals.length 0 prior).1).2)

/-- The monitor's mutable state: the prior-value dict and the `first` flag. -/
structure MonState where
  prior : List (Nat × Nat)
  first : Bool
deriving DecidableEq

/-- One iteration of the monitor's outer `while True` loop: process every
range, then (after the sleep) clear `first` (source lines 446-510).  `first`
is cleared only after the whole pass; an aborted pass never reaches that
point. -/
def monitorIteration (read : Nat → Nat → MbResponse) (catalog : List RegEntry) (cfg : MonCfg)
    (ranges : List (Nat × Nat)) (st : MonState) : List Report × Option MonState :=
  ((runRanges read catalog cfg st.first ranges st.prior).1,
    (runRanges read catalog cfg st.first ranges st.prior).2.map
      (fun p => { prior := p, first := false }))

/-- During warm-up the walk reports nothing and records exactly the priors
that a non-warm-up walk would record. -/
lemma walkBuffer_first (catalog : List RegEntry) (cfg : MonCfg) (start : Nat)
    (values : List Nat) :
    ∀ (fuel idx : Nat) (prior : List (Nat × Nat)),
      walkBuffer catalog cfg true start values fuel idx prior
        = ((walkBuffer catalog cfg false start values fuel idx prior).1, []) := by
  intro fuel
  induction fuel with
  | zero => intro idx prior; rfl
  | succ fuel ih =>
    intro idx prior
    simp only [walkBuffer]
    by_cases hlen : idx < values.length
    · simp only [if_pos hlen]
      cases hfind : catalog.find? (fun e => e.addr == start + idx) with
      | some e =>
        by_cases hskip : cfg.skip.contains (start + idx)
        · simp only [hskip, if_true, ih]
        · simp only [hskip, if_false, ih, Bool.false_eq_true, if_true, List.nil_append]
      | none =>
        by_cases hskip : cfg.skip.contains (start + idx)
        · simp only [hskip, if_true, ih]
        · simp only [hskip, if_false, ih, Bool.false_eq_true, if_true, List.nil_append]
    · simp only [if_neg hlen]

/-- During warm-up a full pass reports nothing and ends in the same priors as
a non-warm-up pass over the same data. -/
lemma runRanges_first (read : Nat → Nat → MbResponse) (catalog : List RegEntry) (cfg : MonCfg) :
    ∀ (ranges : List (Nat × Nat)) (prior : List (Nat × Nat)),
      runRanges read catalog cfg true ranges prior
        = ([], (runRanges read catalog cfg false ranges prior).2) := by
  intro ranges
  induction ranges with
  | nil => intro prior; rfl
  | cons r rest ih =>
    intro prior
    obtain ⟨s, e⟩ := r
    cases hfill : fillRange read s (e - s) (e - s) [] with
    | none => simp only [runRanges, hfill]
    | some vals =>
      simp only [runRanges, hfill, walkBuffer_first, ih, List.nil_append]

/-- C3: during the monitor's first full polling pass no value is ever
reported, for any transport, catalog, thresholds, skip set and ranges; the
pass records exactly the priors (and hence the resulting state) that a
warmed-up pass over the same data would record; and the state after the first
completed full pass has `first = false`, so warmed-up behavior begins only
after the first full pass over all ranges completes. -/
theorem monitor_warmup_never_reports :
    ∀ (read : Nat → Nat → MbResponse) (catalog : List RegEntry) (cfg : MonCfg)
      (ranges : List (Nat × Nat)) (prior : List (Nat × Nat)),
      (monitorIteration read catalog cfg ranges ⟨prior, true⟩).1 = []
      ∧ (monitorIteration read catalog cfg ranges ⟨prior, true⟩).2
          = (monitorIteration read catalog cfg ranges ⟨prior, false⟩).2
      ∧ (∀ st' : MonState,
          (monitorIteration read catalog cfg ranges ⟨prior, true⟩).2 = some st' →
          st'.first = false) := by
  intro read catalog cfg ranges prior
  refine ⟨?_, ?_, ?_⟩
  · simp only [monitorIteration, runRanges_first]
  · simp only [monitorIteration, runRanges_first]
  · intro st' h
    simp only [monitorIteration] at h
    cases h2 : (runRanges read catalog cfg (MonState.first ⟨prior, true⟩) ranges
        (MonState.prior ⟨prior, true⟩)).2 with
    | none => rw [h2] at h; simp at h
    | some p =>
      rw [h2] at h
      simp only [Option.map_some'] at h
      injection h with h3
      rw [← h3]

/-- Witness for C3: a 16-word range of zeros read through an always-ok
transport; the state after the warm-up pass has `first = false`. -/
theorem monitor_warmup_never_reports_witness :
    (⟨(List.range 16).map (fun a => (a, 0)), false⟩ : MonState).first = false :=
  (monitor_warmup_never_reports (fun _ _ => MbResponse.ok (List.replicate 16 0)) []
      ⟨none, none, []⟩ [(0, 16)] []).2.2
    ⟨(List.range 16).map (fun a => (a, 0)), false⟩ (by decide)

/-- C5: transport failures never escape `readRegister` / `writeRegister` as
exceptions — every non-ok response becomes a no-value result plus a
diagnostic message — and the monitor loop, on a failed read within a cycle,
aborts that cycle's remaining ranges (the buffer-filling loop stops at the
failed read, and the pass produces no further reports and no diffs over the
partial buffer). -/
theorem transport_errors_never_raise :
    (∀ regs : List Nat, readRegister (MbResponse.ok regs) = (some regs, []))
    ∧ (∀ resp : MbResponse, (∀ regs, resp ≠ MbResponse.ok regs) →
        (readRegister resp).1 = none ∧ (readRegister resp).2 ≠ [])
    ∧ (∀ resp : MbResponse, (∀ regs, resp ≠ MbResponse.ok regs) →
        (writeRegister resp).1 = none ∧ (writeRegister resp).2 ≠ [])
    ∧ (∀ (read : Nat → Nat → MbResponse) (start need fuel : Nat) (acc : List Nat),
        acc.length < need →
        (readRegisterVia read (start + acc.length) 0).1 = none →
        fillRange read start need (fuel + 1) acc = none)
    ∧ (∀ (read : Nat → Nat → MbResponse) (catalog : List RegEntry) (cfg : MonCfg)
        (first : Bool) (s e : Nat) (rest : List (Nat × Nat)) (prior : List (Nat × Nat)),
        fillRange read s (e - s) (e - s) [] = none →
        runRanges read catalog cfg first ((s, e) :: rest) prior = ([], none)) := by
  refine ⟨fun regs => rfl, fun resp h => ?_, fun resp h => ?_, ?_, ?_⟩
  · cases resp with
    | ok regs => exact absurd rfl (h regs)
    | raisedException => exact ⟨rfl, by simp [readRegister]⟩
    | errorResponse => exact ⟨rfl, by simp [readRegister]⟩
    | exceptionResponse => exact ⟨rfl, by simp [readRegister]⟩
  · cases resp with
    | ok regs => exact absurd rfl (h regs)
    | raisedException => exact ⟨rfl, by simp [writeRegister]⟩
    | errorResponse => exact ⟨rfl, by simp [writeRegister]⟩
    | exceptionResponse => exact ⟨rfl, by simp [writeRegister]⟩
  · intro read start need fuel acc h1 h2
    rw [fillRange, if_pos h1, h2]
  · intro read catalog cfg first s e rest prior hfill
    simp only [runRanges, hfill]

/-- Witness for C5: an always-failing transport yields a no-value read with a
diagnostic, and the cycle over a range list aborts with no reports. -/
theorem transport_errors_never_raise_witness :
    ((readRegister MbResponse.errorResponse).1 = none
      ∧ (readRegister MbResponse.errorResponse).2 ≠ [])
    ∧ runRanges (fun _ _ => MbResponse.errorResponse) [] ⟨none, none, []⟩ true
        [(0, 16)] [] = ([], none) :=
  ⟨transport_errors_never_raise.2.1 MbResponse.errorResponse (fun _ h => nomatch h),
    transport_errors_never_raise.2.2.2.2 (fun _ _ => MbResponse.errorResponse) []
      ⟨none, none, []⟩ true 0 16 [] [] rfl⟩

/-- An operation issued to the transport: a read of `count` words or a write
of a word list. -/
inductive TransportOp where
  | read (addr count : Nat)
  | write (addr : Nat) (values : List Nat)
deriving DecidableEq

/-- The `set` branch (source lines 543-567) for a target that parsed to
`targetAddr` (or not): the first catalog entry matching the target by name or
by parsed address receives a single write of `[value]` to the entry's
address; with no catalog match, a parsed address receives the same single
write; otherwise the command errors out.  `writeRegister` always sends the
one-element list `[value]` (source line 331), and no read is ever issued. -/
def setAction (catalog : List RegEntry) (target : String) (targetAddr : Option Nat)
    (value : Nat) : Option (List TransportOp) :=
  match catalog.find? (fun e => target == e.name || targetAddr == some e.addr) with
  | some e => some [TransportOp.write e.addr [value]]
  | none =>
    match targetAddr with
    | none => none
    | some a => some [TransportOp.write a [value]]

/-- Dropping an entry's access-mode field. -/
def eraseMode (e : RegEntry) : RegEntry := { e with mode := none }

/-- C10: every `set` target that resolves (by catalog name or by numeric
address, matched or not) causes exactly one write of exactly one word to the
resolved address and no read; and the catalog's `mode` field is never
consulted — erasing every `mode` marker leaves the command's behavior
unchanged, so entries without `rw` are written exactly like read-write
ones. -/
theorem set_single_word_write_ignores_mode :
    (∀ (catalog : List RegEntry) (target : String) (targetAddr : Option Nat) (value : Nat)
        (ops : List TransportOp),
        setAction catalog target targetAddr value = some ops →
        ∃ a, ops = [TransportOp.write a [value]])
    ∧ (∀ (catalog : List RegEntry) (target : String) (targetAddr : Option Nat) (value : Nat),
        setAction (catalog.map eraseMode) target targetAddr value
          = setAction catalog target targetAddr value) := by
  constructor
  · intro catalog target targetAddr value ops h
    rw [setAction.eq_def] at h
    cases hfind : catalog.find? (fun e => target == e.name || targetAddr == some e.addr) with
    | some e =>
      rw [hfind] at h
      exact ⟨e.addr, (Option.some.injEq _ _).mp h.symm⟩
    | none =>
      rw [hfind] at h
      cases targetAddr with
      | none => exact absurd h (by simp)
      | some a => exact ⟨a, (Option.some.injEq _ _).mp h.symm⟩
  · intro catalog target targetAddr value
    rw [setAction.eq_def, setAction.eq_def, List.find?_map]
    have hp : ((fun e => target == e.name || targetAddr == some e.addr) ∘ eraseMode)
        = (fun e => target == e.name || targetAddr == some e.addr) := rfl
    rw [hp]
    cases catalog.find? (fun e => target == e.name || targetAddr == some e.addr) with
    | none => rfl
    | some e => rfl

/-- Witness for C10: `set TIME_LIMIT_MODE_CUSTOM_BUFFER_TIME 120` issues the
single one-word write to 0x3203. -/
theorem set_single_word_write_ignores_mode_witness :
    ∃ a, [TransportOp.write 0x3203 [120]] = [TransportOp.write a [120]] :=
  set_single_word_write_ignores_mode.1 Quint24DCRegisters "TIME_LIMIT_MODE_CUSTOM_BUFFER_TIME"
    none 120 [TransportOp.write 0x3203 [120]] (by decide)

end Quintctl
